import Mathlib

/-!
# Verification of `ethabi`'s `Param` resolution (`src/ethabi/src/param.rs`)

This file shallowly embeds the `Param` deserialization visitor
(`ParamVisitor::visit_map`) of the `ethabi` crate and proves properties of it.

The visitor consumes a stream of key/value pairs.  Keys `name`, `type` and
`components` are recognized; every other key is skipped.  Each recognized key
fills an optional slot, a second occurrence being an immediate error.  After
the stream ends, `name` and `type` must be present; when the parsed type is
tuple-shaped (a bare tuple, an array of tuple, or a fixed-size array of
tuple), `components` must be present and its recursively resolved kinds
replace the tuple's placeholder field list.
-/

/-- Modelled from the spec: the `ParamType` type-descriptor enum
(`param_type.rs` is not part of the provided sources).  Variants follow §2/§3
of the spec: `Tuple` (ordered field list), `Array`, `FixedArray` with a size,
and opaque leaves (`address`, `bytes`, fixed/variable integers, …). -/
inductive ParamType : Type where
  | address : ParamType
  | bytes : ParamType
  | int : Nat → ParamType
  | uint : Nat → ParamType
  | bool : ParamType
  | string : ParamType
  | fixedBytes : Nat → ParamType
  | array : ParamType → ParamType
  | fixedArray : ParamType → Nat → ParamType
  | tuple : List ParamType → ParamType
deriving Repr

/-- The `Param` output value: a name paired with a fully resolved type
descriptor (struct `Param` in `param.rs`). -/
structure Param : Type where
  name : String
  kind : ParamType
deriving Repr

/-- The deserialization errors the visitor can produce:
`Error::duplicate_field`, `Error::missing_field`, and nested failures coming
from decoding a value (the type string, a name value, or a component list). -/
inductive DeError : Type where
  | duplicateField : String → DeError
  | missingField : String → DeError
  | nested : String → DeError
deriving Repr, DecidableEq

mutual
/-- A value in the key/value stream: a string scalar, a list of nested
records (the shape `components` must have), or some other opaque value. -/
inductive Val : Type where
  | str : String → Val
  | recs : RecList → Val
  | other : Nat → Val

/-- A list of nested records. -/
inductive RecList : Type where
  | nil : RecList
  | cons : Fields → RecList → RecList

/-- One record: its key/value pairs in stream order.  Keys may repeat. -/
inductive Fields : Type where
  | nil : Fields
  | cons : String → Val → Fields → Fields
end

/-- Build a `Fields` stream from a plain list of key/value pairs. -/
def Fields.ofList : List (String × Val) → Fields
  | [] => .nil
  | (k, v) :: rest => .cons k v (Fields.ofList rest)

/-- Build a `RecList` from a plain list of records. -/
def RecList.ofList : List Fields → RecList
  | [] => .nil
  | r :: rest => .cons r (RecList.ofList rest)

/-- View a `RecList` as a plain list of records. -/
def RecList.toList : RecList → List Fields
  | .nil => []
  | .cons r rest => r :: rest.toList

/-- Digits (most significant first) to a natural number. -/
def digitsToNat (ds : List Char) : Nat :=
  ds.foldl (fun acc c => acc * 10 + (c.toNat - 48)) 0

/-- Is the string nonempty and entirely decimal digits? -/
def allDigits (ds : List Char) : Bool :=
  !ds.isEmpty && ds.all Char.isDigit

/-- Modelled from the spec: the base cases of the type-descriptor parser
(`Reader` in `reader.rs` is not part of the provided sources).  It recognizes
the primitive names, the sized integer/bytes families, and the bare keyword
`tuple`, for which it produces a `Tuple` with a placeholder empty field
list. -/
def parseBase (s : String) : Option ParamType :=
  if s = "address" then some .address
  else if s = "bool" then some .bool
  else if s = "bytes" then some .bytes
  else if s = "string" then some .string
  else if s = "tuple" then some (.tuple [])
  else if s = "int" then some (.int 256)
  else if s = "uint" then some (.uint 256)
  else
    match s.data with
    | 'u' :: 'i' :: 'n' :: 't' :: ds =>
      if allDigits ds then some (.uint (digitsToNat ds)) else none
    | 'i' :: 'n' :: 't' :: ds =>
      if allDigits ds then some (.int (digitsToNat ds)) else none
    | 'b' :: 'y' :: 't' :: 'e' :: 's' :: ds =>
      if allDigits ds then some (.fixedBytes (digitsToNat ds)) else none
    | _ => none

/-- Modelled from the spec: the array-suffix cases of the type-descriptor
parser, working on the reversed character list so the `[]` / `[N]` suffixes
are at the head.  `fuel` bounds the recursion depth; `parseType` supplies
enough of it. -/
def parseRev : Nat → List Char → Option ParamType
  | 0, _ => none
  | fuel + 1, cs =>
    match cs with
    | ']' :: rest =>
      let ds := rest.takeWhile Char.isDigit
      match rest.dropWhile Char.isDigit with
      | '[' :: rest2 =>
        match parseRev fuel rest2 with
        | none => none
        | some inner =>
          if ds.isEmpty then some (.array inner)
          else some (.fixedArray inner (digitsToNat ds.reverse))
      | _ => none
    | cs' => parseBase (String.mk cs'.reverse)

/-- Modelled from the spec: `parse(string) -> TypeDescriptor`, the
type-descriptor collaborator.  Returns `none` on strings outside the
grammar. -/
def parseType (s : String) : Option ParamType :=
  parseRev (s.length + 1) s.data.reverse

/-- The end-of-stream phase of `visit_map` (param.rs lines 105–133):
`name` must be present, else `missing_field("name")`; `type` must be present,
else `missing_field("kind")` (the source uses the slot name `"kind"`);
then tuple-shape substitution: a bare `Tuple`, an `Array` of `Tuple`, or a
`FixedArray` of `Tuple` requires `components`, whose kinds replace the
placeholder field list; every other shape passes through unchanged. -/
def finishRecord (name? : Option String) (kind? : Option ParamType)
    (comps? : Option (List Param)) : Except DeError Param :=
  match name? with
  | none => .error (.missingField "name")
  | some name =>
    match kind? with
    | none => .error (.missingField "kind")
    | some pt =>
      match pt with
      | .tuple _ =>
        match comps? with
        | none => .error (.missingField "components")
        | some ps => .ok ⟨name, .tuple (ps.map Param.kind)⟩
      | .array inner =>
        match inner with
        | .tuple _ =>
          match comps? with
          | none => .error (.missingField "components")
          | some ps => .ok ⟨name, .array (.tuple (ps.map Param.kind))⟩
        | _ => .ok ⟨name, .array inner⟩
      | .fixedArray inner size =>
        match inner with
        | .tuple _ =>
          match comps? with
          | none => .error (.missingField "components")
          | some ps => .ok ⟨name, .fixedArray (.tuple (ps.map Param.kind)) size⟩
        | _ => .ok ⟨name, .fixedArray inner size⟩
      | _ => .ok ⟨name, pt⟩

/-- Apply the end-of-stream phase to the outcome of the field-streaming
loop, propagating a loop error unchanged. -/
def finishCollected
    (res : Except DeError (Option String × Option ParamType × Option (List Param))) :
    Except DeError Param :=
  match res with
  | .error e => .error e
  | .ok (name?, kind?, comps?) => finishRecord name? kind? comps?

/-- Decoding the value of a `name` key (`map.next_value::<String>()`):
only a string is accepted; anything else is a nested decoding error. -/
def decodeName (v : Val) : Except DeError String :=
  match v with
  | .str s => .ok s
  | _ => .error (.nested "invalid type: expected a string for name")

/-- Decoding the value of a `type` key (`map.next_value::<ParamType>()`):
a string that the type-descriptor collaborator parses; a parse failure or a
non-string value is a nested decoding error. -/
def decodeType (v : Val) : Except DeError ParamType :=
  match v with
  | .str s =>
    match parseType s with
    | some t => .ok t
    | none => .error (.nested ("invalid type descriptor: " ++ s))
  | _ => .error (.nested "invalid type: expected a string for type")

mutual
/-- The field-streaming loop of `ParamVisitor::visit_map` (param.rs lines
81–104): walk the key/value stream, filling the `name`, `kind` and
`components` slots.  A second occurrence of a recognized key fails
immediately with `duplicate_field` — note the source reports a duplicate
`"type"` key as `duplicate_field("kind")` — and the value of each recognized
key is decoded at the point of the key (`map.next_value()`), so a malformed
value or a failing nested component resolution aborts there.  Unrecognized
keys are skipped. -/
def collectFields : Fields → Option String → Option ParamType →
    Option (List Param) → Except DeError (Option String × Option ParamType × Option (List Param))
  | .nil, name?, kind?, comps? => .ok (name?, kind?, comps?)
  | .cons key v rest, name?, kind?, comps? =>
    if key = "name" then
      if name?.isSome then .error (.duplicateField "name")
      else (decodeName v).bind fun s => collectFields rest (some s) kind? comps?
    else if key = "type" then
      if kind?.isSome then .error (.duplicateField "kind")
      else (decodeType v).bind fun t => collectFields rest name? (some t) comps?
    else if key = "components" then
      if comps?.isSome then .error (.duplicateField "components")
      else
        match v with
        | .recs rs =>
          (resolveComponents rs).bind fun ps => collectFields rest name? kind? (some ps)
        | _ => .error (.nested "invalid type: expected a sequence for components")
    else
      collectFields rest name? kind? comps?
termination_by structural f _ _ _ => f

/-- Modelled from the spec: resolving the `components` sequence.  Each
component record is "identical in shape to the top-level one" (§3,
`ComponentSpec`), so each element is resolved by the same record resolution,
errors propagating unchanged. -/
def resolveComponents : RecList → Except DeError (List Param)
  | .nil => .ok []
  | .cons r rest =>
    (finishCollected (collectFields r none none none)).bind fun p =>
      (resolveComponents rest).bind fun ps => .ok (p :: ps)
termination_by structural rs => rs
end

/-- The whole of `ParamVisitor::visit_map`: stream the fields, then run the
end-of-stream checks and tuple substitution. -/
def resolveRecord (f : Fields) : Except DeError Param :=
  finishCollected (collectFields f none none none)

/-- Is the descriptor a bare `Tuple`? -/
def ParamType.isTupleKind : ParamType → Bool
  | .tuple _ => true
  | _ => false

/-- Is the descriptor an `Array` or a `FixedArray` (of anything)? -/
def ParamType.isArrayShaped : ParamType → Bool
  | .array _ => true
  | .fixedArray _ _ => true
  | _ => false

/-- Tuple-shaped in the sense of the spec's glossary: a bare `Tuple`, or an
`Array`/`FixedArray` whose direct inner descriptor is `Tuple`.  These are
exactly the shapes for which `visit_map` consults `components`. -/
def tupleShaped : ParamType → Bool
  | .tuple _ => true
  | .array inner => inner.isTupleKind
  | .fixedArray inner _ => inner.isTupleKind
  | _ => false

/-- Is the key one of the three the visitor recognizes? -/
def recognizedKey (k : String) : Bool :=
  k = "name" || k = "type" || k = "components"

/-- Keep only the occurrences of recognized keys, in stream order. -/
def recognizedFields : Fields → Fields
  | .nil => .nil
  | .cons k v rest =>
    if recognizedKey k then .cons k v (recognizedFields rest)
    else recognizedFields rest

/-- Length of the top-level key/value spine of a record (nested records not
counted); an induction measure. -/
def Fields.spine : Fields → Nat
  | .nil => 0
  | .cons _ _ rest => rest.spine + 1

/-- Length of a record list's spine; an induction measure. -/
def RecList.spine : RecList → Nat
  | .nil => 0
  | .cons _ rest => rest.spine + 1


/-! ## Step lemmas for the field-streaming loop

The loop's defining equations, restated per key and value shape; all later
proofs and evaluations go through these. -/

/-- An exhausted stream returns the three slots. -/
@[simp] theorem collectFields_nil (n? : Option String) (k? : Option ParamType)
    (c? : Option (List Param)) :
    collectFields .nil n? k? c? = .ok (n?, k?, c?) := rfl

/-- A `name` key: duplicate check, then decode and recurse. -/
@[simp] theorem collectFields_name_step (v : Val) (rest : Fields) (n? : Option String)
    (k? : Option ParamType) (c? : Option (List Param)) :
    collectFields (.cons "name" v rest) n? k? c? =
      if n?.isSome then .error (.duplicateField "name")
      else (decodeName v).bind fun s => collectFields rest (some s) k? c? := by
  simp [collectFields]

/-- A `type` key: duplicate check (reported as `"kind"`), then decode and
recurse. -/
@[simp] theorem collectFields_type_step (v : Val) (rest : Fields) (n? : Option String)
    (k? : Option ParamType) (c? : Option (List Param)) :
    collectFields (.cons "type" v rest) n? k? c? =
      if k?.isSome then .error (.duplicateField "kind")
      else (decodeType v).bind fun t => collectFields rest n? (some t) c? := by
  simp [collectFields]

/-- A `components` key holding a record list: duplicate check, then resolve
each component and recurse. -/
@[simp] theorem collectFields_components_recs (rs : RecList) (rest : Fields)
    (n? : Option String) (k? : Option ParamType) (c? : Option (List Param)) :
    collectFields (.cons "components" (.recs rs) rest) n? k? c? =
      if c?.isSome then .error (.duplicateField "components")
      else (resolveComponents rs).bind fun ps => collectFields rest n? k? (some ps) := by
  simp [collectFields]

/-- A `components` key holding a string: duplicate check, then a nested
decoding error. -/
@[simp] theorem collectFields_components_str (s : String) (rest : Fields)
    (n? : Option String) (k? : Option ParamType) (c? : Option (List Param)) :
    collectFields (.cons "components" (.str s) rest) n? k? c? =
      if c?.isSome then .error (.duplicateField "components")
      else .error (.nested "invalid type: expected a sequence for components") := by
  simp [collectFields]

/-- A `components` key holding an opaque value: duplicate check, then a
nested decoding error. -/
@[simp] theorem collectFields_components_other (tag : Nat) (rest : Fields)
    (n? : Option String) (k? : Option ParamType) (c? : Option (List Param)) :
    collectFields (.cons "components" (.other tag) rest) n? k? c? =
      if c?.isSome then .error (.duplicateField "components")
      else .error (.nested "invalid type: expected a sequence for components") := by
  simp [collectFields]

/-- An unrecognized key is skipped, its value untouched. -/
@[simp] theorem collectFields_skip_step (k : String) (v : Val) (rest : Fields)
    (hn : k ≠ "name") (ht : k ≠ "type") (hc : k ≠ "components")
    (n? : Option String) (k? : Option ParamType) (c? : Option (List Param)) :
    collectFields (.cons k v rest) n? k? c? = collectFields rest n? k? c? := by
  rw [collectFields.eq_def]
  simp [hn, ht, hc]

/-- An empty component list resolves to the empty parameter list. -/
@[simp] theorem resolveComponents_nil : resolveComponents .nil = .ok [] := by
  rw [resolveComponents.eq_def]

/-- A nonempty component list resolves its head record, then the tail. -/
@[simp] theorem resolveComponents_cons (r : Fields) (rest : RecList) :
    resolveComponents (.cons r rest) =
      (resolveRecord r).bind fun p =>
        (resolveComponents rest).bind fun ps => .ok (p :: ps) := by
  rw [resolveComponents.eq_def]
  rfl

/-! ## Helper lemmas -/

/-- A descriptor that is not tuple-shaped passes through `finishRecord`
unchanged, whatever the `components` slot holds. -/
theorem finishRecord_not_tupleShaped (n : String) (t : ParamType)
    (c : Option (List Param)) (h : tupleShaped t = false) :
    finishRecord (some n) (some t) c = .ok ⟨n, t⟩ := by
  cases t with
  | array inner =>
    cases inner <;> simp_all [tupleShaped, ParamType.isTupleKind, finishRecord]
  | fixedArray inner sz =>
    cases inner <;> simp_all [tupleShaped, ParamType.isTupleKind, finishRecord]
  | _ => simp_all [tupleShaped, finishRecord]

/-- Successful component resolution resolves each record in order:
mapping `resolveRecord` over the component records yields exactly the
returned params, each wrapped in `.ok`. -/
theorem resolveComponents_map_aux :
    ∀ (m : Nat) (rs : RecList) (ps : List Param), rs.spine ≤ m →
      resolveComponents rs = .ok ps →
      rs.toList.map resolveRecord = ps.map Except.ok := by
  intro m
  induction m with
  | zero =>
    intro rs ps hsp hok
    cases rs with
    | nil =>
      simp only [resolveComponents] at hok
      cases hok
      simp [RecList.toList]
    | cons r rest => simp [RecList.spine] at hsp
  | succ m ih =>
    intro rs ps hsp hok
    cases rs with
    | nil =>
      simp only [resolveComponents] at hok
      cases hok
      simp [RecList.toList]
    | cons r rest =>
      simp only [RecList.spine] at hsp
      simp only [resolveComponents] at hok
      cases hr : finishCollected (collectFields r none none none) with
      | error e => rw [hr] at hok; cases hok
      | ok p =>
        rw [hr] at hok
        cases hrest : resolveComponents rest with
        | error e => rw [hrest] at hok; cases hok
        | ok ps' =>
          rw [hrest] at hok
          cases hok
          have := ih rest ps' (by omega) hrest
          simp [RecList.toList, resolveRecord, hr, this]

/-- List-level form of `resolveComponents_map_aux`. -/
theorem resolveComponents_map (rs : RecList) (ps : List Param)
    (hok : resolveComponents rs = .ok ps) :
    rs.toList.map resolveRecord = ps.map Except.ok :=
  resolveComponents_map_aux rs.spine rs ps le_rfl hok

/-- The field-streaming loop never looks at unrecognized keys: it computes
the same outcome on a stream and on its projection to recognized keys. -/
theorem collectFields_recognized_aux :
    ∀ (m : Nat) (f : Fields), f.spine ≤ m →
      ∀ (n? : Option String) (k? : Option ParamType) (c? : Option (List Param)),
        collectFields f n? k? c? = collectFields (recognizedFields f) n? k? c? := by
  intro m
  induction m with
  | zero =>
    intro f hsp n? k? c?
    cases f with
    | nil => rfl
    | cons k v rest => simp [Fields.spine] at hsp
  | succ m ih =>
    intro f hsp n? k? c?
    cases f with
    | nil => rfl
    | cons k v rest =>
      simp only [Fields.spine] at hsp
      have ihrest := ih rest (by omega)
      by_cases hn : k = "name"
      · subst hn
        have hkeep : recognizedFields (Fields.cons "name" v rest)
            = Fields.cons "name" v (recognizedFields rest) := by
          simp [recognizedFields, recognizedKey]
        rw [hkeep, collectFields_name_step, collectFields_name_step]
        cases n? with
        | some s => simp
        | none =>
          cases hd : decodeName v with
          | error e => simp [hd, Except.bind]
          | ok s => simp [hd, Except.bind, ihrest]
      · by_cases ht : k = "type"
        · subst ht
          have hkeep : recognizedFields (Fields.cons "type" v rest)
              = Fields.cons "type" v (recognizedFields rest) := by
            simp [recognizedFields, recognizedKey]
          rw [hkeep, collectFields_type_step, collectFields_type_step]
          cases k? with
          | some t => simp
          | none =>
            cases hd : decodeType v with
            | error e => simp [hd, Except.bind]
            | ok t => simp [hd, Except.bind, ihrest]
        · by_cases hc : k = "components"
          · subst hc
            have hkeep : recognizedFields (Fields.cons "components" v rest)
                = Fields.cons "components" v (recognizedFields rest) := by
              simp [recognizedFields, recognizedKey]
            rw [hkeep]
            cases v with
            | str s => rw [collectFields_components_str, collectFields_components_str]
            | other tag =>
              rw [collectFields_components_other, collectFields_components_other]
            | recs rs =>
              rw [collectFields_components_recs, collectFields_components_recs]
              cases c? with
              | some ps => simp
              | none =>
                cases hr : resolveComponents rs with
                | error e => simp [hr, Except.bind]
                | ok ps => simp [hr, Except.bind, ihrest]
          · have hrk : recognizedKey k = false := by
              simp [recognizedKey, hn, ht, hc]
            have hproj : recognizedFields (Fields.cons k v rest)
                = recognizedFields rest := by
              simp [recognizedFields, hrk]
            rw [hproj, collectFields_skip_step k v rest hn ht hc]
            exact ihrest n? k? c?

/-- Record-level consequence: two records whose recognized-key occurrences
agree (values included, in order) resolve identically. -/
theorem resolveRecord_recognized (f1 f2 : Fields)
    (h : recognizedFields f1 = recognizedFields f2) :
    resolveRecord f1 = resolveRecord f2 := by
  unfold resolveRecord
  rw [collectFields_recognized_aux f1.spine f1 le_rfl,
    collectFields_recognized_aux f2.spine f2 le_rfl, h]

/-- Shared helper: a record whose `type` parses to a non-tuple-shaped
descriptor resolves to that descriptor unchanged, with or without a
well-formed `components` field. -/
theorem resolveRecord_passthrough (name s : String) (t : ParamType)
    (rs : RecList) (ps : List Param)
    (hparse : parseType s = some t)
    (hshape : tupleShaped t = false)
    (hcomp : resolveComponents rs = .ok ps) :
    resolveRecord (Fields.ofList [("name", .str name), ("type", .str s)])
      = .ok ⟨name, t⟩
    ∧ resolveRecord (Fields.ofList
        [("name", .str name), ("type", .str s), ("components", .recs rs)])
      = .ok ⟨name, t⟩ := by
  have h1 : collectFields
      (Fields.ofList [("name", .str name), ("type", .str s)]) none none none
      = .ok (some name, some t, none) := by
    simp [Fields.ofList, decodeName, decodeType, hparse, Except.bind]
  have h2 : collectFields (Fields.ofList
      [("name", .str name), ("type", .str s), ("components", .recs rs)])
      none none none = .ok (some name, some t, some ps) := by
    simp [Fields.ofList, decodeName, decodeType, hparse, hcomp, Except.bind]
  constructor
  · rw [resolveRecord, h1]
    exact finishRecord_not_tupleShaped name t none hshape
  · rw [resolveRecord, h2]
    exact finishRecord_not_tupleShaped name t (some ps) hshape

/-! ## Claims -/

/-- C1: a record whose `type` parses to a bare `Tuple` and that carries a
`components` list resolves to `Tuple(ks)` where `ks` are exactly the
recursively resolved kinds of the components, in declared order; the
parser's placeholder field list `ts` is discarded.  The last conjunct ties
each returned param to the resolution of the corresponding component record
(recursively through `resolveRecord`), in order. -/
theorem C1_bare_tuple_substitution (name s : String) (ts : List ParamType)
    (rs : RecList) (ps : List Param)
    (hparse : parseType s = some (.tuple ts))
    (hcomp : resolveComponents rs = .ok ps) :
    (∀ f : Fields,
      collectFields f none none none = .ok (some name, some (.tuple ts), some ps) →
        resolveRecord f = .ok ⟨name, .tuple (ps.map Param.kind)⟩)
    ∧ resolveRecord (Fields.ofList
        [("name", .str name), ("type", .str s), ("components", .recs rs)])
      = .ok ⟨name, .tuple (ps.map Param.kind)⟩
    ∧ rs.toList.map resolveRecord = ps.map Except.ok := by
  refine ⟨fun f hf => ?_, ?_, resolveComponents_map rs ps hcomp⟩
  · rw [resolveRecord, hf]
    rfl
  · have h : collectFields (Fields.ofList
        [("name", .str name), ("type", .str s), ("components", .recs rs)])
        none none none = .ok (some name, some (.tuple ts), some ps) := by
      simp [Fields.ofList, decodeName, decodeType, hparse, hcomp, Except.bind]
    rw [resolveRecord, h]
    rfl

/-- C1 witness: the bare-tuple record with one `address` component. -/
theorem C1_witness :
    parseType "tuple" = some (.tuple [])
    ∧ resolveComponents (RecList.ofList
        [Fields.ofList [("name", Val.str "x"), ("type", Val.str "address")]])
      = .ok [⟨"x", ParamType.address⟩]
    ∧ resolveRecord (Fields.ofList [("name", .str "foo"), ("type", .str "tuple"),
        ("components", .recs (RecList.ofList
          [Fields.ofList [("name", Val.str "x"), ("type", Val.str "address")]]))])
      = .ok ⟨"foo", .tuple [ParamType.address]⟩ := by
  have h1 : parseType "tuple" = some (ParamType.tuple []) := rfl
  have h2 : resolveComponents (RecList.ofList
      [Fields.ofList [("name", Val.str "x"), ("type", Val.str "address")]])
      = .ok [⟨"x", ParamType.address⟩] := by
    have hp : parseType "address" = some ParamType.address := rfl
    simp [RecList.ofList, Fields.ofList, resolveRecord, decodeName, decodeType,
      hp, Except.bind, finishCollected, finishRecord]
  refine ⟨h1, h2, ?_⟩
  simpa using (C1_bare_tuple_substitution "foo" "tuple" [] _ _ h1 h2).2.1

/-- C2: a record whose `type` parses to `Array(Tuple(...))` (e.g.
`"tuple[]"`) and that carries a `components` list resolves to
`Array(Tuple(ks))`, `ks` built from the resolved component kinds in
declared order, exactly as in the bare-tuple case. -/
theorem C2_array_tuple_substitution (name s : String) (ts : List ParamType)
    (rs : RecList) (ps : List Param)
    (hparse : parseType s = some (.array (.tuple ts)))
    (hcomp : resolveComponents rs = .ok ps) :
    (∀ f : Fields,
      collectFields f none none none
          = .ok (some name, some (.array (.tuple ts)), some ps) →
        resolveRecord f = .ok ⟨name, .array (.tuple (ps.map Param.kind))⟩)
    ∧ resolveRecord (Fields.ofList
        [("name", .str name), ("type", .str s), ("components", .recs rs)])
      = .ok ⟨name, .array (.tuple (ps.map Param.kind))⟩
    ∧ rs.toList.map resolveRecord = ps.map Except.ok := by
  refine ⟨fun f hf => ?_, ?_, resolveComponents_map rs ps hcomp⟩
  · rw [resolveRecord, hf]
    rfl
  · have h : collectFields (Fields.ofList
        [("name", .str name), ("type", .str s), ("components", .recs rs)])
        none none none = .ok (some name, some (.array (.tuple ts)), some ps) := by
      simp [Fields.ofList, decodeName, decodeType, hparse, hcomp, Except.bind]
    rw [resolveRecord, h]
    rfl

/-- C2 witness: `"tuple[]"` with three components, mirroring the
`param_tuple_array_deserialization` test. -/
theorem C2_witness :
    parseType "tuple[]" = some (.array (.tuple []))
    ∧ resolveComponents (RecList.ofList
        [Fields.ofList [("name", Val.str "amount"), ("type", Val.str "uint48")],
         Fields.ofList [("name", Val.str "to"), ("type", Val.str "address")],
         Fields.ofList [("name", Val.str "from"), ("type", Val.str "address")]])
      = .ok [⟨"amount", ParamType.uint 48⟩, ⟨"to", ParamType.address⟩,
          ⟨"from", ParamType.address⟩]
    ∧ resolveRecord (Fields.ofList [("name", .str "foo"), ("type", .str "tuple[]"),
        ("components", .recs (RecList.ofList
          [Fields.ofList [("name", Val.str "amount"), ("type", Val.str "uint48")],
           Fields.ofList [("name", Val.str "to"), ("type", Val.str "address")],
           Fields.ofList [("name", Val.str "from"), ("type", Val.str "address")]]))])
      = .ok ⟨"foo", .array (.tuple [ParamType.uint 48, ParamType.address,
          ParamType.address])⟩ := by
  have h1 : parseType "tuple[]" = some (ParamType.array (ParamType.tuple [])) := rfl
  have h2 : resolveComponents (RecList.ofList
      [Fields.ofList [("name", Val.str "amount"), ("type", Val.str "uint48")],
       Fields.ofList [("name", Val.str "to"), ("type", Val.str "address")],
       Fields.ofList [("name", Val.str "from"), ("type", Val.str "address")]])
      = .ok [⟨"amount", ParamType.uint 48⟩, ⟨"to", ParamType.address⟩,
          ⟨"from", ParamType.address⟩] := by
    have hp : parseType "address" = some ParamType.address := rfl
    have hu : parseType "uint48" = some (ParamType.uint 48) := rfl
    simp [RecList.ofList, Fields.ofList, resolveRecord, decodeName, decodeType,
      hp, hu, Except.bind, finishCollected, finishRecord]
  refine ⟨h1, h2, ?_⟩
  simpa using (C2_array_tuple_substitution "foo" "tuple[]" [] _ _ h1 h2).2.1

/-- C3: a record whose `type` parses to `FixedArray(Tuple(...), N)` (e.g.
`"tuple[N]"`) and that carries a `components` list resolves to
`FixedArray(Tuple(ks), N)`, `ks` built as in the bare-tuple case and the
size `N` carried through unchanged. -/
theorem C3_fixed_array_tuple_substitution (name s : String) (ts : List ParamType)
    (n : Nat) (rs : RecList) (ps : List Param)
    (hparse : parseType s = some (.fixedArray (.tuple ts) n))
    (hcomp : resolveComponents rs = .ok ps) :
    (∀ f : Fields,
      collectFields f none none none
          = .ok (some name, some (.fixedArray (.tuple ts) n), some ps) →
        resolveRecord f = .ok ⟨name, .fixedArray (.tuple (ps.map Param.kind)) n⟩)
    ∧ resolveRecord (Fields.ofList
        [("name", .str name), ("type", .str s), ("components", .recs rs)])
      = .ok ⟨name, .fixedArray (.tuple (ps.map Param.kind)) n⟩
    ∧ rs.toList.map resolveRecord = ps.map Except.ok := by
  refine ⟨fun f hf => ?_, ?_, resolveComponents_map rs ps hcomp⟩
  · rw [resolveRecord, hf]
    rfl
  · have h : collectFields (Fields.ofList
        [("name", .str name), ("type", .str s), ("components", .recs rs)])
        none none none
        = .ok (some name, some (.fixedArray (.tuple ts) n), some ps) := by
      simp [Fields.ofList, decodeName, decodeType, hparse, hcomp, Except.bind]
    rw [resolveRecord, h]
    rfl

/-- C3 witness: `"tuple[2]"` with one component; the size 2 is preserved. -/
theorem C3_witness :
    parseType "tuple[2]" = some (.fixedArray (.tuple []) 2)
    ∧ resolveComponents (RecList.ofList
        [Fields.ofList [("name", Val.str "x"), ("type", Val.str "address")]])
      = .ok [⟨"x", ParamType.address⟩]
    ∧ resolveRecord (Fields.ofList [("name", .str "foo"), ("type", .str "tuple[2]"),
        ("components", .recs (RecList.ofList
          [Fields.ofList [("name", Val.str "x"), ("type", Val.str "address")]]))])
      = .ok ⟨"foo", .fixedArray (.tuple [ParamType.address]) 2⟩ := by
  have h1 : parseType "tuple[2]" = some (ParamType.fixedArray (ParamType.tuple []) 2) := rfl
  have h2 : resolveComponents (RecList.ofList
      [Fields.ofList [("name", Val.str "x"), ("type", Val.str "address")]])
      = .ok [⟨"x", ParamType.address⟩] := by
    have hp : parseType "address" = some ParamType.address := rfl
    simp [RecList.ofList, Fields.ofList, resolveRecord, decodeName, decodeType,
      hp, Except.bind, finishCollected, finishRecord]
  refine ⟨h1, h2, ?_⟩
  simpa using (C3_fixed_array_tuple_substitution "foo" "tuple[2]" [] 2 _ _ h1 h2).2.1

/-- C4: a record whose `type` parses to a descriptor that is not
tuple-shaped resolves to exactly that descriptor; a well-formed
`components` field may be present but has no effect. -/
theorem C4_non_tuple_passthrough (name s : String) (t : ParamType)
    (rs : RecList) (ps : List Param)
    (hparse : parseType s = some t)
    (hshape : tupleShaped t = false)
    (hcomp : resolveComponents rs = .ok ps) :
    resolveRecord (Fields.ofList [("name", .str name), ("type", .str s)])
      = .ok ⟨name, t⟩
    ∧ resolveRecord (Fields.ofList
        [("name", .str name), ("type", .str s), ("components", .recs rs)])
      = .ok ⟨name, t⟩ :=
  resolveRecord_passthrough name s t rs ps hparse hshape hcomp

/-- C4 witness: an `address` record, with and without a stray
`components` field. -/
theorem C4_witness :
    parseType "address" = some ParamType.address
    ∧ tupleShaped ParamType.address = false
    ∧ resolveComponents RecList.nil = .ok []
    ∧ resolveRecord (Fields.ofList [("name", .str "foo"), ("type", .str "address")])
      = .ok ⟨"foo", ParamType.address⟩
    ∧ resolveRecord (Fields.ofList [("name", .str "foo"), ("type", .str "address"),
        ("components", .recs RecList.nil)])
      = .ok ⟨"foo", ParamType.address⟩ := by
  have h1 : parseType "address" = some ParamType.address := rfl
  have h2 : tupleShaped ParamType.address = false := rfl
  have h3 : resolveComponents RecList.nil = .ok [] := resolveComponents_nil
  have h := C4_non_tuple_passthrough "foo" "address" ParamType.address RecList.nil [] h1 h2 h3
  exact ⟨h1, h2, h3, h.1, h.2⟩

/-- C5 counterexample: a record with two `type` keys fails with
`duplicate_field("kind")` — not `DuplicateField("type")` as claimed —
because param.rs line 91 passes the slot name `"kind"`. -/
theorem C5_counterexample :
    resolveRecord (Fields.ofList [("name", Val.str "foo"),
        ("type", Val.str "address"), ("type", Val.str "address")])
      = .error (.duplicateField "kind")
    ∧ DeError.duplicateField "kind" ≠ DeError.duplicateField "type" := by
  constructor
  · have hp : parseType "address" = some ParamType.address := rfl
    simp [resolveRecord, Fields.ofList, decodeName, decodeType, hp, Except.bind,
      finishCollected]
  · decide

/-- C5 (amended): a second occurrence of a recognized key fails immediately
with `DuplicateField`, whose tag is the record key for `name` and
`components` but the internal slot name `"kind"` for `type`.  Stated both at
the loop level (arbitrary slot state, arbitrary value and tail) and on whole
records. -/
theorem C5_amended_duplicate_fields (v : Val) (rest : Fields) (n : String)
    (t : ParamType) (ps : List Param) (n? : Option String)
    (k? : Option ParamType) (c? : Option (List Param)) :
    collectFields (.cons "name" v rest) (some n) k? c?
      = .error (.duplicateField "name")
    ∧ collectFields (.cons "type" v rest) n? (some t) c?
      = .error (.duplicateField "kind")
    ∧ collectFields (.cons "components" v rest) n? k? (some ps)
      = .error (.duplicateField "components")
    ∧ resolveRecord (.cons "name" (.str "foo") (.cons "name" v rest))
      = .error (.duplicateField "name")
    ∧ resolveRecord (.cons "type" (.str "address") (.cons "type" v rest))
      = .error (.duplicateField "kind")
    ∧ resolveRecord (.cons "components" (.recs .nil) (.cons "components" v rest))
      = .error (.duplicateField "components") := by
  have hp : parseType "address" = some ParamType.address := rfl
  refine ⟨by simp, by simp, ?_, ?_, ?_, ?_⟩
  · cases v <;> simp
  · simp [resolveRecord, decodeName, Except.bind, finishCollected]
  · simp [resolveRecord, decodeType, hp, Except.bind, finishCollected]
  · cases v <;> simp [resolveRecord, Except.bind, finishCollected]

/-- C6 counterexample: a record carrying only `name` fails with
`missing_field("kind")` — not `MissingField("type")` as claimed — because
param.rs line 107 passes the slot name `"kind"`. -/
theorem C6_counterexample :
    resolveRecord (Fields.ofList [("name", Val.str "foo")])
      = .error (.missingField "kind")
    ∧ DeError.missingField "kind" ≠ DeError.missingField "type" := by
  constructor
  · simp [resolveRecord, Fields.ofList, decodeName, Except.bind, finishCollected,
      finishRecord]
  · decide

/-- C6 (amended): after the stream is exhausted with no duplicate, a record
with no `name` fails with `MissingField("name")`; one with `name` but no
`type` fails with `MissingField("kind")` (the internal slot name, per
param.rs line 107). -/
theorem C6_amended_missing_fields (f : Fields) (k? : Option ParamType)
    (c? : Option (List Param)) (n : String) :
    (collectFields f none none none = .ok (none, k?, c?) →
      resolveRecord f = .error (.missingField "name"))
    ∧ (collectFields f none none none = .ok (some n, none, c?) →
      resolveRecord f = .error (.missingField "kind")) := by
  constructor
  · intro h
    rw [resolveRecord, h]
    rfl
  · intro h
    rw [resolveRecord, h]
    rfl

/-- C6 witness: a record with only a `type` field is missing `name`. -/
theorem C6_amended_witness :
    collectFields (Fields.ofList [("type", Val.str "address")]) none none none
      = .ok (none, some ParamType.address, none)
    ∧ resolveRecord (Fields.ofList [("type", Val.str "address")])
      = .error (.missingField "name") := by
  have hp : parseType "address" = some ParamType.address := rfl
  have h : collectFields (Fields.ofList [("type", Val.str "address")]) none none none
      = .ok (none, some ParamType.address, none) := by
    simp [Fields.ofList, decodeType, hp, Except.bind]
  exact ⟨h, (C6_amended_missing_fields (Fields.ofList [("type", Val.str "address")])
    (some ParamType.address) none "x").1 h⟩

/-- C7: a record whose collected slots hold a `name` and a tuple-shaped
`type` but no `components` fails with `MissingField("components")`. -/
theorem C7_missing_components (f : Fields) (n : String) (t : ParamType)
    (hc : collectFields f none none none = .ok (some n, some t, none))
    (hs : tupleShaped t = true) :
    resolveRecord f = .error (.missingField "components") := by
  rw [resolveRecord, hc]
  cases t with
  | tuple ts => rfl
  | array inner =>
    cases inner <;> simp_all [tupleShaped, ParamType.isTupleKind, finishCollected,
      finishRecord]
  | fixedArray inner sz =>
    cases inner <;> simp_all [tupleShaped, ParamType.isTupleKind, finishCollected,
      finishRecord]
  | _ => simp_all [tupleShaped]

/-- C7 witness: a bare `"tuple"` record with no `components` key. -/
theorem C7_witness :
    collectFields (Fields.ofList [("name", Val.str "foo"), ("type", Val.str "tuple")])
        none none none = .ok (some "foo", some (.tuple []), none)
    ∧ tupleShaped (.tuple []) = true
    ∧ resolveRecord (Fields.ofList [("name", Val.str "foo"), ("type", Val.str "tuple")])
      = .error (.missingField "components") := by
  have hp : parseType "tuple" = some (ParamType.tuple []) := rfl
  have h : collectFields (Fields.ofList [("name", Val.str "foo"),
      ("type", Val.str "tuple")]) none none none
      = .ok (some "foo", some (ParamType.tuple []), none) := by
    simp [Fields.ofList, decodeName, decodeType, hp, Except.bind]
  exact ⟨h, rfl, C7_missing_components _ "foo" (ParamType.tuple []) h rfl⟩

/-- C8: duplicates are fail-fast.  A second occurrence of a recognized key
aborts at that point for any value of the duplicate occurrence (it is not
consumed or validated) and any continuation of the stream (later fields,
malformed or not, never take precedence); the records below also lack
`name` resp. `type`, which does not change the reported error. -/
theorem C8_duplicate_fail_fast (v : Val) (rest : Fields) :
    resolveRecord (.cons "type" (.str "address") (.cons "type" v rest))
      = .error (.duplicateField "kind")
    ∧ resolveRecord (.cons "name" (.str "n") (.cons "name" v rest))
      = .error (.duplicateField "name")
    ∧ resolveRecord (.cons "components" (.recs .nil) (.cons "components" v rest))
      = .error (.duplicateField "components") := by
  have hp : parseType "address" = some ParamType.address := rfl
  refine ⟨?_, ?_, ?_⟩
  · simp [resolveRecord, decodeType, hp, Except.bind, finishCollected]
  · simp [resolveRecord, decodeName, Except.bind, finishCollected]
  · cases v <;> simp [resolveRecord, Except.bind, finishCollected]

/-- C9: unrecognized keys never change the outcome.  Two records that agree
on the occurrences of `name`, `type` and `components` (values included, in
stream order) but differ arbitrarily in other keys resolve to the same
Parameter or the same error. -/
theorem C9_unrecognized_keys_irrelevant (f1 f2 : Fields)
    (h : recognizedFields f1 = recognizedFields f2) :
    resolveRecord f1 = resolveRecord f2 :=
  resolveRecord_recognized f1 f2 h

/-- C9 witness: junk fields before, between and after the recognized ones
(of string, record-list and opaque shapes) leave the result untouched. -/
theorem C9_witness :
    recognizedFields (Fields.ofList [("junk", Val.other 7),
        ("name", Val.str "a"), ("extra", Val.str "zzz"), ("type", Val.str "bool")])
      = recognizedFields (Fields.ofList [("name", Val.str "a"),
          ("type", Val.str "bool"), ("stuff", Val.recs RecList.nil)])
    ∧ resolveRecord (Fields.ofList [("junk", Val.other 7),
        ("name", Val.str "a"), ("extra", Val.str "zzz"), ("type", Val.str "bool")])
      = resolveRecord (Fields.ofList [("name", Val.str "a"),
          ("type", Val.str "bool"), ("stuff", Val.recs RecList.nil)]) := by
  have h : recognizedFields (Fields.ofList [("junk", Val.other 7),
      ("name", Val.str "a"), ("extra", Val.str "zzz"), ("type", Val.str "bool")])
      = recognizedFields (Fields.ofList [("name", Val.str "a"),
          ("type", Val.str "bool"), ("stuff", Val.recs RecList.nil)]) := by
    simp [Fields.ofList, recognizedFields, recognizedKey]
  exact ⟨h, C9_unrecognized_keys_irrelevant _ _ h⟩

/-- C10: tuple substitution looks only one array level deep.  When the
parsed descriptor is an `Array` or `FixedArray` whose direct inner
descriptor is itself an `Array`/`FixedArray` (e.g. `"tuple[][]"`, parsing to
`Array(Array(Tuple))`), the record is not tuple-shaped: `components` is not
required, is ignored when present, and the parsed descriptor — nested
placeholder tuple included — is returned unchanged. -/
theorem C10_one_array_level_deep (name s : String) (u : ParamType) (m : Nat)
    (rs : RecList) (ps : List Param)
    (hu : u.isArrayShaped = true)
    (hcomp : resolveComponents rs = .ok ps) :
    (parseType s = some (.array u) →
      resolveRecord (Fields.ofList [("name", .str name), ("type", .str s)])
        = .ok ⟨name, .array u⟩
      ∧ resolveRecord (Fields.ofList
          [("name", .str name), ("type", .str s), ("components", .recs rs)])
        = .ok ⟨name, .array u⟩)
    ∧ (parseType s = some (.fixedArray u m) →
      resolveRecord (Fields.ofList [("name", .str name), ("type", .str s)])
        = .ok ⟨name, .fixedArray u m⟩
      ∧ resolveRecord (Fields.ofList
          [("name", .str name), ("type", .str s), ("components", .recs rs)])
        = .ok ⟨name, .fixedArray u m⟩) := by
  have hnt : u.isTupleKind = false := by
    cases u <;> simp_all [ParamType.isArrayShaped, ParamType.isTupleKind]
  constructor
  · intro hparse
    exact resolveRecord_passthrough name s (.array u) rs ps hparse
      (by simp [tupleShaped, hnt]) hcomp
  · intro hparse
    exact resolveRecord_passthrough name s (.fixedArray u m) rs ps hparse
      (by simp [tupleShaped, hnt]) hcomp

/-- C10 witness: `"tuple[][]"` parses to `Array(Array(Tuple))` and passes
through unresolved, with or without a `components` field. -/
theorem C10_witness :
    ParamType.isArrayShaped (.array (.tuple [])) = true
    ∧ resolveComponents RecList.nil = .ok []
    ∧ parseType "tuple[][]" = some (.array (.array (.tuple [])))
    ∧ resolveRecord (Fields.ofList [("name", Val.str "foo"),
        ("type", Val.str "tuple[][]")])
      = .ok ⟨"foo", .array (.array (.tuple []))⟩
    ∧ resolveRecord (Fields.ofList [("name", Val.str "foo"),
        ("type", Val.str "tuple[][]"), ("components", Val.recs RecList.nil)])
      = .ok ⟨"foo", .array (.array (.tuple []))⟩ := by
  have h1 : ParamType.isArrayShaped (.array (.tuple [])) = true := rfl
  have h2 : resolveComponents RecList.nil = .ok [] := resolveComponents_nil
  have h3 : parseType "tuple[][]" = some (.array (.array (.tuple []))) := rfl
  have h := (C10_one_array_level_deep "foo" "tuple[][]" (.array (.tuple [])) 0
    RecList.nil [] h1 h2).1 h3
  exact ⟨h1, h2, h3, h.1, h.2⟩
